import Mathlib

/-!
Shallow embedding of `youtube_playlist_transcriber.py` (single source file of the
repository).  Pure data manipulation (the JSON ledger, filename cleaning, the
content check of `is_video_transcribed`) is translated into Lean functions; the
effectful pipeline (`download_video_and_audio` and the per-video loop of `main`)
is translated into functions that, given an explicit environment describing the
behaviour of the external world (stream availability, exceptions raised by
pytubefix, ffmpeg success, transcription text), return the ordered list of
observable events together with the resulting persisted ledger.

Python dictionaries are modelled as association lists in insertion order, with
unique keys where the Python runtime guarantees them (a `dict` cannot hold a
duplicate key).  Every definition follows the source line by line; source line
numbers are given in the doc comments.
-/

/-- One playlist entry of the persisted ledger `transcribed_videos.json`:
an object holding a `title` string and a `videos` list (source lines 80-84). -/
structure PlaylistRecord where
  title : String
  videos : List String
deriving DecidableEq

/-- The well-formed (current format) ledger mapping: playlist id to its record.
A Python `dict` in insertion order, modelled as an association list. -/
abbrev Ledger := List (String × PlaylistRecord)

/-- Dictionary lookup `transcribed_data[playlist_id]` (first entry with the key;
a Python `dict` has at most one). -/
def lookupPl (d : Ledger) (k : String) : Option PlaylistRecord :=
  (d.find? (fun p => p.1 == k)).map (fun p => p.2)

/-- Shape of the JSON value parsed from `transcribed_videos.json`: either the
legacy format (a bare list) or the current mapping format (source line 64). -/
inductive StoredData
  | jsonList (videos : List String)
  | jsonMap (m : Ledger)
deriving DecidableEq

/-- A value of the mapping returned by `load_transcribed_videos`: the legacy
branch stores the raw list unchanged under the key `default`, so the result
value type admits both a raw list and a playlist record. -/
inductive LoadedVal
  | legacyList (videos : List String)
  | playlistVal (r : PlaylistRecord)
deriving DecidableEq

/-- Source lines 59-67: load the ledger file.  The argument is `none` when the
file does not exist (`os.path.exists` false), otherwise the parsed JSON.
A parsed list is wrapped as a one-key mapping under `default`; a parsed
mapping is returned unchanged; a missing file gives the empty mapping. -/
def load_transcribed_videos : Option StoredData → List (String × LoadedVal)
  | none => []
  | some (.jsonList xs) => [("default", .legacyList xs)]
  | some (.jsonMap m) => m.map (fun p => (p.1, .playlistVal p.2))

/-- Source lines 69-74: true iff the video id occurs in the `videos` list of
some playlist entry of the loaded ledger. -/
def video_exists_in_any_playlist (video_id : String) (transcribed_data : Ledger) : Bool :=
  transcribed_data.any (fun p => p.2.videos.contains video_id)

/-- The in-place mutation `transcribed_data[playlist_id]['videos'].append(video_id)`
of source line 88: the entry keyed `playlist_id` gets the video id appended to
its `videos` list, every other entry is untouched. -/
def appendVideo (playlist_id video_id : String) (d : Ledger) : Ledger :=
  d.map (fun p =>
    if p.1 = playlist_id then (p.1, ⟨p.2.title, p.2.videos ++ [video_id]⟩) else p)

/-- Source lines 76-92: `save_transcribed_video`.  The Python function reloads
the ledger from disk, inserts, and writes the whole mapping back; persistence
is modelled by returning the mapping that is written to the file.  Lines 80-84
create the playlist entry when the key is absent (appended at the end, Python
dict insertion order); lines 87-88 append the video id to that entry only when
it is not already present there. -/
def save_transcribed_video (video_id playlist_id playlist_title : String)
    (transcribed_data : Ledger) : Ledger :=
  let d1 : Ledger :=
    if (lookupPl transcribed_data playlist_id).isSome then transcribed_data
    else transcribed_data ++ [(playlist_id, ⟨playlist_title, []⟩)]
  match lookupPl d1 playlist_id with
  | some r =>
      if video_id ∈ r.videos then d1
      else appendVideo playlist_id video_id d1
  | none => d1

/-- Source lines 119-121: keep alphanumeric characters, space, dash and
underscore, then strip trailing whitespace (after the filter the only
whitespace character left is the space). -/
def clean_filename (text : String) : String :=
  String.mk
    (((text.data.filter (fun c => c.isAlphanum || c = ' ' || c = '-' || c = '_')).reverse.dropWhile
      (fun c => c = ' ')).reverse)

/-- Modelled from the spec: `sanitize_filename` is called by
`is_video_transcribed` (source line 333) but is defined nowhere in the
repository source.  Spec section 6 only requires transcript paths to be
deterministic in the playlist title, so we model it by the repository's
analogous filename cleaner `clean_filename` (source lines 119-121). -/
def sanitize_filename (text : String) : String :=
  clean_filename text

/-- The transcript path built at source lines 333-334,
with `os.path.join` modelled as slash concatenation. -/
def transcriptPath (video_id playlist_title output_path : String) : String :=
  output_path ++ "/" ++ sanitize_filename playlist_title ++ "/" ++ video_id ++ ".txt"

/-- Source lines 331-344: the check returns true only when the transcript file
exists and its content, stripped of surrounding whitespace, is non-empty.
The filesystem is modelled as a map from path to optional content
(`none` models `os.path.exists` returning false). -/
def is_video_transcribed (fs : String → Option String)
    (video_id playlist_title output_path : String) : Bool :=
  match fs (transcriptPath video_id playlist_title output_path) with
  | some content => content.trim != ""
  | none => false

/-- Exception classes caught at source lines 199-200: the pytubefix content
exceptions plus `HTTPError`.  Only `MembersOnly` and `VideoUnavailable`
receive the special no-retry handling at line 202. -/
inductive ExcKind
  | membersOnly
  | videoPrivate
  | videoRegionBlocked
  | ageRestrictedError
  | liveStreamError
  | httpError
  | videoUnavailable
deriving DecidableEq

/-- Behaviour of the external world during one iteration of the download loop
(one `YouTube` object construction plus stream queries and downloads).

* `streamsOk`: adaptive video and audio streams found, both downloads and the
  ffmpeg merge succeed (lines 140-182).
* `mergeError`: adaptive streams found and downloaded but the ffmpeg merge
  subprocess fails; `subprocess.run(check=True)` raises
  `CalledProcessError`, which is not in the caught tuple of line 199 and so
  propagates out of the function (lines 163-173).
* `progressiveOk`: no adaptive pair, the progressive fallback stream is found
  and downloaded (lines 184-197).
* `noStreams`: neither adaptive pair nor progressive stream; the `try` body
  falls through without returning or raising, and the loop repeats without
  incrementing `retry_count` (line 192 guard fails).
* `raiseExc k`: the iteration raises an exception of class `k`, caught at
  lines 199-200. -/
inductive AttemptOutcome
  | streamsOk
  | mergeError
  | progressiveOk
  | noStreams
  | raiseExc (k : ExcKind)
deriving DecidableEq

/-- How a call of `download_video_and_audio` ends: a returned file path, the
`None` return of line 215, an uncaught exception propagating to the caller, or
`pending` when the supplied finite environment ends before the loop does
(never the case in the theorems below, which fully determine the loop). -/
inductive DownloadResult
  | filePath (p : String)
  | noneR
  | raised
  | pending
deriving DecidableEq

/-- Observable events of a run, in program order.  `sleepEv` records the
`time.sleep` calls (line 130 sleeps 1, line 211 sleeps 2); `fetchAttemptEv`
records one construction of the `YouTube` object with its stream queries and
downloads; `ledgerWriteEv` records the full mapping written to
`transcribed_videos.json` by `save_transcribed_video`; `nameErrorEv` records
the `NameError` raised by evaluating the global name `PLAYLIST_ID`, which is
referenced at source lines 205 and 451 but assigned nowhere in the file;
`processErrorEv` records an uncaught `CalledProcessError` from the ffmpeg
merge. -/
inductive Event
  | sleepEv (seconds : Nat)
  | fetchAttemptEv (videoId : String)
  | extractAudioEv (videoId : String)
  | transcribeEv (videoId : String)
  | writeTranscriptEv (videoId : String) (text : String)
  | ledgerWriteEv (d : Ledger)
  | removeFileEv (videoId : String)
  | nameErrorEv
  | processErrorEv
deriving DecidableEq

/-- The filename built at source lines 134-137. -/
def downloadFilename (video_id video_title playlist_title : String) : String :=
  clean_filename playlist_title ++ " - " ++ video_id ++ " - " ++ clean_filename video_title

/-- Source lines 128-215: the retry loop of `download_video_and_audio`.
Each loop iteration consumes the next `AttemptOutcome` of the environment.
The loop guard `retry_count < max_retries` (line 128) is checked on entry;
`max_retries = 3` (line 125).  On `MembersOnly` or `VideoUnavailable`
(line 202) the handler evaluates the undefined global `PLAYLIST_ID`
(line 205), so `save_transcribed_video` is never entered and a `NameError`
propagates: no ledger write happens on that path.  On the other caught
exception classes `retry_count` is incremented and, if attempts remain,
the loop sleeps 2 seconds and continues (lines 208-212); after the third
failed attempt the loop exits and the function returns `None` (line 215). -/
def download_loop (video_id fname : String) :
    List AttemptOutcome → Nat → List Event × DownloadResult
  | [], _ => ([], .pending)
  | o :: rest, retry_count =>
    if 3 ≤ retry_count then ([], .noneR)
    else
      match o with
      | .streamsOk =>
          ([.sleepEv 1, .fetchAttemptEv video_id], .filePath (fname ++ ".mp4"))
      | .mergeError =>
          ([.sleepEv 1, .fetchAttemptEv video_id, .processErrorEv], .raised)
      | .progressiveOk =>
          ([.sleepEv 1, .fetchAttemptEv video_id], .filePath (fname ++ ".mp4"))
      | .noStreams =>
          let r := download_loop video_id fname rest retry_count
          (.sleepEv 1 :: .fetchAttemptEv video_id :: r.1, r.2)
      | .raiseExc k =>
          if k = .membersOnly ∨ k = .videoUnavailable then
            ([.sleepEv 1, .fetchAttemptEv video_id, .nameErrorEv], .raised)
          else if retry_count + 1 < 3 then
            let r := download_loop video_id fname rest (retry_count + 1)
            (.sleepEv 1 :: .fetchAttemptEv video_id :: .sleepEv 2 :: r.1, r.2)
          else
            ([.sleepEv 1, .fetchAttemptEv video_id], .noneR)

/-- Source lines 123-215: `download_video_and_audio`, entered with
`retry_count = 0` (line 126). -/
def download_video_and_audio (video_id video_title playlist_title : String)
    (attempts : List AttemptOutcome) : List Event × DownloadResult :=
  download_loop video_id (downloadFilename video_id video_title playlist_title) attempts 0

/-- One enumerated playlist item (source lines 402-403). -/
structure VideoInfo where
  videoId : String
  title : String
deriving DecidableEq

/-- Environment for processing one video: the download-loop outcomes, the
result of `extract_audio` (line 428), the `os.path.exists` re-check of
line 432, and the text returned by `transcribe_audio` (line 437). -/
structure VideoEnv where
  attempts : List AttemptOutcome
  extract_ok : Bool
  audio_exists : Bool
  transcription : String
deriving DecidableEq

/-- Result of one iteration of the `for` loop of `main`: the events emitted,
the persisted ledger afterwards, and whether control reaches the next
iteration (`false` when an uncaught exception aborts the run). -/
structure StepResult where
  events : List Event
  ledger : Ledger
  continueRun : Bool
deriving DecidableEq

/-- Source lines 401-451: one iteration of the `for` loop of `main`.

`td0` is the ledger snapshot loaded once at line 395 and `pv0` the list
`playlist_videos` computed once at line 396; both stay fixed for the whole
run.  `d` is the current content of the persisted ledger file, which
`save_transcribed_video` reads and rewrites.

Lines 406-409: a video found anywhere in the snapshot is recorded under the
current playlist and the loop continues.  Lines 411-413: a video already in
`playlist_videos` is skipped.  Otherwise the download runs (line 417); on a
`None` result the loop continues (lines 419-421); audio extraction failure or
a missing audio file also continue (lines 428-434).  On success the
transcription is obtained (line 437), written to the transcript file
(lines 440-442) whatever its content, the ledger is updated (line 445), the
audio file removed (line 448), and then line 451 evaluates the undefined
global `PLAYLIST_ID`: the resulting `NameError` propagates out of `main`, so
control never reaches the next iteration. -/
def process_one (playlist_id playlist_title : String) (td0 : Ledger) (pv0 : List String)
    (d : Ledger) (v : VideoInfo) (env : VideoEnv) : StepResult :=
  if video_exists_in_any_playlist v.videoId td0 then
    let d1 := save_transcribed_video v.videoId playlist_id playlist_title d
    ⟨[.ledgerWriteEv d1], d1, true⟩
  else if v.videoId ∈ pv0 then ⟨[], d, true⟩
  else
    let fname := downloadFilename v.videoId v.title playlist_title
    match (download_loop v.videoId fname env.attempts 0).2 with
    | .raised => ⟨(download_loop v.videoId fname env.attempts 0).1, d, false⟩
    | .noneR => ⟨(download_loop v.videoId fname env.attempts 0).1, d, true⟩
    | .pending => ⟨(download_loop v.videoId fname env.attempts 0).1, d, false⟩
    | .filePath _ =>
      if env.extract_ok = false then
        ⟨(download_loop v.videoId fname env.attempts 0).1 ++ [.extractAudioEv v.videoId], d, true⟩
      else if env.audio_exists = false then
        ⟨(download_loop v.videoId fname env.attempts 0).1 ++ [.extractAudioEv v.videoId], d, true⟩
      else
        let d1 := save_transcribed_video v.videoId playlist_id playlist_title d
        ⟨(download_loop v.videoId fname env.attempts 0).1 ++
            [.extractAudioEv v.videoId, .transcribeEv v.videoId,
             .writeTranscriptEv v.videoId env.transcription, .ledgerWriteEv d1,
             .removeFileEv v.videoId, .nameErrorEv],
          d1, false⟩

/-- The `for` loop of `main` over the enumerated items (source line 401),
threading the persisted ledger state and stopping when an iteration ends in
an uncaught exception. -/
def run_loop (playlist_id playlist_title : String) (td0 : Ledger) (pv0 : List String) :
    List (VideoInfo × VideoEnv) → Ledger → List Event × Ledger
  | [], d => ([], d)
  | (v, env) :: rest, d =>
    let s := process_one playlist_id playlist_title td0 pv0 d v env
    if s.continueRun then
      let r := run_loop playlist_id playlist_title td0 pv0 rest s.ledger
      (s.events ++ r.1, r.2)
    else (s.events, s.ledger)

/-- Source lines 394-451: the per-video part of `main`.  The snapshot `td0`
and the initial persisted state are both the loaded ledger `d0`;
`playlist_videos` is extracted at line 396. -/
def main_run (playlist_id playlist_title : String) (d0 : Ledger)
    (videos : List (VideoInfo × VideoEnv)) : List Event × Ledger :=
  run_loop playlist_id playlist_title d0
    (((lookupPl d0 playlist_id).map (fun r => r.videos)).getD []) videos d0

/-- Event classifier: a write of the persisted ledger file. -/
def isLedgerWrite : Event → Bool
  | .ledgerWriteEv _ => true
  | _ => false

/-- Event classifier: a write of any transcript file. -/
def isTranscriptWrite : Event → Bool
  | .writeTranscriptEv _ _ => true
  | _ => false

/-- Event classifier: a write of the transcript file of the given video. -/
def isTranscriptWriteFor (vid : String) : Event → Bool
  | .writeTranscriptEv v _ => v == vid
  | _ => false

/-- Event classifier: a fetch attempt for the given video. -/
def isFetchAttemptFor (vid : String) : Event → Bool
  | .fetchAttemptEv v => v == vid
  | _ => false

/-- Number of fetch attempts for the given video in an event list. -/
def countFetchAttempts (vid : String) (evs : List Event) : Nat :=
  evs.countP (isFetchAttemptFor vid)

/-- Content of the persisted ledger file after a list of events has happened,
starting from content `d`: each `ledgerWriteEv` replaces the whole file. -/
def ledgerAfterEvents (d : Ledger) (evs : List Event) : Ledger :=
  evs.foldl (fun acc e => match e with | .ledgerWriteEv l => l | _ => acc) d

/-- An event list is interrupt safe for a video when cutting it at any point
before the video's transcript write leaves the persisted ledger file exactly
as it was. -/
def InterruptSafe (vid : String) (d : Ledger) (evs : List Event) : Prop :=
  ∀ n, ((evs.take n).any (isTranscriptWriteFor vid) = false) →
    ledgerAfterEvents d (evs.take n) = d

theorem lookupPl_cons (a : String) (b : PlaylistRecord) (tl : Ledger) (q : String) :
    lookupPl ((a, b) :: tl) q = if a = q then some b else lookupPl tl q := by
  by_cases h : a = q
  · simp [lookupPl, List.find?, h]
  · have hb : (a == q) = false := beq_eq_false_iff_ne.mpr h
    simp [lookupPl, List.find?, h, hb]

theorem lookupPl_append_ne (d : Ledger) (x : String × PlaylistRecord) (q : String)
    (h : x.1 ≠ q) : lookupPl (d ++ [x]) q = lookupPl d q := by
  induction d with
  | nil =>
      obtain ⟨a, b⟩ := x
      simp only [List.nil_append, lookupPl_cons]
      rw [if_neg h]
  | cons hd tl ih =>
      obtain ⟨a, b⟩ := hd
      simp only [List.cons_append, lookupPl_cons]
      by_cases hq : a = q
      · simp [hq]
      · simp [hq, ih]

theorem lookupPl_append_self (d : Ledger) (pid : String) (b : PlaylistRecord)
    (h : lookupPl d pid = none) : lookupPl (d ++ [(pid, b)]) pid = some b := by
  induction d with
  | nil => simp [lookupPl_cons]
  | cons hd tl ih =>
      obtain ⟨a, c⟩ := hd
      rw [lookupPl_cons] at h
      by_cases hq : a = pid
      · rw [if_pos hq] at h; exact absurd h (by simp)
      · rw [if_neg hq] at h
        simp only [List.cons_append, lookupPl_cons, if_neg hq]
        exact ih h

theorem lookupPl_eq_none_iff (d : Ledger) (pid : String) :
    lookupPl d pid = none ↔ ∀ p ∈ d, p.1 ≠ pid := by
  induction d with
  | nil => simp [lookupPl]
  | cons hd tl ih =>
      obtain ⟨a, b⟩ := hd
      rw [lookupPl_cons]
      by_cases hq : a = pid
      · subst hq
        simp
      · simp only [if_neg hq, ih, List.mem_cons]
        constructor
        · rintro h p (rfl | hp)
          · exact hq
          · exact h p hp
        · intro h p hp
          exact h p (Or.inr hp)

theorem lookupPl_of_mem_nodup (d : Ledger) (hKeys : (d.map Prod.fst).Nodup)
    (p : String × PlaylistRecord) (hp : p ∈ d) : lookupPl d p.1 = some p.2 := by
  induction d with
  | nil => cases hp
  | cons hd tl ih =>
      obtain ⟨a, b⟩ := hd
      rw [List.map_cons, List.nodup_cons] at hKeys
      rcases List.mem_cons.mp hp with rfl | hmem
      · rw [lookupPl_cons, if_pos rfl]
      · have hmem1 : p.1 ∈ tl.map Prod.fst := List.mem_map_of_mem Prod.fst hmem
        have hne : a ≠ p.1 := by
          intro hEq
          rw [hEq] at hKeys
          exact hKeys.1 hmem1
        rw [lookupPl_cons, if_neg hne]
        exact ih hKeys.2 hmem

theorem appendVideo_lookup_ne (pid vid q : String) (d : Ledger) (h : q ≠ pid) :
    lookupPl (appendVideo pid vid d) q = lookupPl d q := by
  induction d with
  | nil => rfl
  | cons hd tl ih =>
      obtain ⟨a, b⟩ := hd
      by_cases ha : a = pid
      · subst ha
        simp only [appendVideo, List.map_cons, if_pos rfl] at ih ⊢
        rw [lookupPl_cons, lookupPl_cons, if_neg (fun hEq => h hEq.symm),
          if_neg (fun hEq => h hEq.symm)]
        exact ih
      · simp only [appendVideo, List.map_cons, if_neg ha] at ih ⊢
        rw [lookupPl_cons, lookupPl_cons]
        by_cases hq : a = q
        · simp [hq]
        · simp [hq, ih]

theorem appendVideo_lookup_self (pid vid : String) (d : Ledger) (r : PlaylistRecord)
    (h : lookupPl d pid = some r) :
    lookupPl (appendVideo pid vid d) pid = some ⟨r.title, r.videos ++ [vid]⟩ := by
  induction d with
  | nil => simp [lookupPl] at h
  | cons hd tl ih =>
      obtain ⟨a, b⟩ := hd
      rw [lookupPl_cons] at h
      by_cases ha : a = pid
      · rw [if_pos ha] at h
        cases h
        simp only [appendVideo, List.map_cons, if_pos ha]
        rw [lookupPl_cons, if_pos ha]
      · rw [if_neg ha] at h
        simp only [appendVideo, List.map_cons, if_neg ha]
        rw [lookupPl_cons, if_neg ha]
        exact ih h

theorem appendVideo_of_no_key (pid vid : String) (d : Ledger)
    (h : ∀ p ∈ d, p.1 ≠ pid) : appendVideo pid vid d = d := by
  induction d with
  | nil => rfl
  | cons hd tl ih =>
      simp only [appendVideo, List.map_cons] at ih ⊢
      rw [if_neg (h hd (List.mem_cons_self hd tl)),
        ih (fun p hp => h p (List.mem_cons_of_mem hd hp))]

theorem save_of_absent (vid pid pt : String) (d : Ledger)
    (hs : lookupPl d pid = none) :
    save_transcribed_video vid pid pt d = d ++ [(pid, ⟨pt, [vid]⟩)] := by
  have hno : ∀ p ∈ d, p.1 ≠ pid := (lookupPl_eq_none_iff d pid).mp hs
  have h1 : lookupPl (d ++ [(pid, (⟨pt, []⟩ : PlaylistRecord))]) pid
      = some ⟨pt, []⟩ := lookupPl_append_self d pid _ hs
  unfold save_transcribed_video
  rw [hs]
  simp only [Option.isSome_none, Bool.false_eq_true, if_false, h1, List.not_mem_nil,
    if_false, appendVideo, List.map_append, List.map_cons, List.map_nil, if_pos rfl]
  rw [show (d.map (fun p =>
      if p.1 = pid then (p.1, (⟨p.2.title, p.2.videos ++ [vid]⟩ : PlaylistRecord)) else p)) = d
    from appendVideo_of_no_key pid vid d hno]
  simp

theorem save_of_mem (vid pid pt : String) (d : Ledger) (r : PlaylistRecord)
    (hs : lookupPl d pid = some r) (hm : vid ∈ r.videos) :
    save_transcribed_video vid pid pt d = d := by
  unfold save_transcribed_video
  rw [hs]
  simp only [Option.isSome_some, if_true, hs, if_pos hm]

theorem save_of_not_mem (vid pid pt : String) (d : Ledger) (r : PlaylistRecord)
    (hs : lookupPl d pid = some r) (hm : vid ∉ r.videos) :
    save_transcribed_video vid pid pt d = appendVideo pid vid d := by
  unfold save_transcribed_video
  rw [hs]
  simp only [Option.isSome_some, if_true, hs, if_neg hm]

theorem save_lookup_other (vid pid pt q : String) (d : Ledger) (h : q ≠ pid) :
    lookupPl (save_transcribed_video vid pid pt d) q = lookupPl d q := by
  cases hs : lookupPl d pid with
  | none =>
      rw [save_of_absent vid pid pt d hs]
      exact lookupPl_append_ne d _ q (Ne.symm h)
  | some r =>
      by_cases hm : vid ∈ r.videos
      · rw [save_of_mem vid pid pt d r hs hm]
      · rw [save_of_not_mem vid pid pt d r hs hm]
        exact appendVideo_lookup_ne pid vid q d h

theorem save_lookup_self (vid pid pt : String) (d : Ledger) :
    ∃ r2, lookupPl (save_transcribed_video vid pid pt d) pid = some r2 ∧
      vid ∈ r2.videos ∧
      ∀ r, lookupPl d pid = some r → r.title = r2.title ∧ ∀ w ∈ r.videos, w ∈ r2.videos := by
  cases hs : lookupPl d pid with
  | none =>
      refine ⟨⟨pt, [vid]⟩, ?_, by simp, ?_⟩
      · rw [save_of_absent vid pid pt d hs]
        exact lookupPl_append_self d pid _ hs
      · intro r hr
        simp at hr
  | some r =>
      by_cases hm : vid ∈ r.videos
      · refine ⟨r, ?_, hm, ?_⟩
        · rw [save_of_mem vid pid pt d r hs hm]
          exact hs
        · intro r0 hr0
          obtain rfl : r0 = r := Option.some_inj.mp hr0.symm
          exact ⟨rfl, fun w hw => hw⟩
      · refine ⟨⟨r.title, r.videos ++ [vid]⟩, ?_, by simp, ?_⟩
        · rw [save_of_not_mem vid pid pt d r hs hm]
          exact appendVideo_lookup_self pid vid d r hs
        · intro r0 hr0
          obtain rfl : r0 = r := Option.some_inj.mp hr0.symm
          exact ⟨rfl, fun w hw => by simp [hw]⟩

theorem save_idempotent (vid pid pt : String) (d : Ledger) :
    save_transcribed_video vid pid pt (save_transcribed_video vid pid pt d)
      = save_transcribed_video vid pid pt d := by
  obtain ⟨r2, hl, hm, _⟩ := save_lookup_self vid pid pt d
  exact save_of_mem vid pid pt _ r2 hl hm

theorem save_videos_nodup (vid pid pt : String) (d : Ledger)
    (hKeys : (d.map Prod.fst).Nodup) (hV : ∀ p ∈ d, p.2.videos.Nodup) :
    ∀ p ∈ save_transcribed_video vid pid pt d, p.2.videos.Nodup := by
  cases hs : lookupPl d pid with
  | none =>
      rw [save_of_absent vid pid pt d hs]
      intro p hp
      rcases List.mem_append.mp hp with hp1 | hp2
      · exact hV p hp1
      · rw [List.mem_singleton.mp hp2]
        simp
  | some r =>
      by_cases hm : vid ∈ r.videos
      · rw [save_of_mem vid pid pt d r hs hm]
        exact hV
      · rw [save_of_not_mem vid pid pt d r hs hm]
        intro p hp
        rcases List.mem_map.mp hp with ⟨p0, hp0, rfl⟩
        by_cases hk : p0.1 = pid
        · rw [if_pos hk]
          have hl := lookupPl_of_mem_nodup d hKeys p0 hp0
          rw [hk, hs] at hl
          have hEq : p0.2 = r := (Option.some_inj.mp hl).symm
          have hnd : p0.2.videos.Nodup := hV p0 hp0
          rw [hEq] at hnd ⊢
          exact List.Nodup.append hnd (List.nodup_singleton vid)
            (List.disjoint_singleton.mpr hm)
        · rw [if_neg hk]
          exact hV p0 hp0

theorem ledgerAfterEvents_of_no_write (d : Ledger) (evs : List Event)
    (h : evs.any isLedgerWrite = false) : ledgerAfterEvents d evs = d := by
  induction evs generalizing d with
  | nil => rfl
  | cons e tl ih =>
      rw [List.any_cons, Bool.or_eq_false_iff] at h
      cases e with
      | sleepEv s => exact ih d h.2
      | fetchAttemptEv w => exact ih d h.2
      | extractAudioEv w => exact ih d h.2
      | transcribeEv w => exact ih d h.2
      | writeTranscriptEv w t => exact ih d h.2
      | ledgerWriteEv l => exact absurd h.1 (by simp [isLedgerWrite])
      | removeFileEv w => exact ih d h.2
      | nameErrorEv => exact ih d h.2
      | processErrorEv => exact ih d h.2

theorem any_take_eq_false {p : Event → Bool} {l : List Event}
    (h : l.any p = false) (n : Nat) : (l.take n).any p = false := by
  induction l generalizing n with
  | nil => simp
  | cons e tl ih =>
      rw [List.any_cons, Bool.or_eq_false_iff] at h
      cases n with
      | zero => simp
      | succ m =>
          rw [List.take_succ_cons, List.any_cons, Bool.or_eq_false_iff]
          exact ⟨h.1, ih h.2 m⟩

theorem download_loop_events (vid fname : String) (atts : List AttemptOutcome) :
    ∀ rc, (download_loop vid fname atts rc).1.any isLedgerWrite = false ∧
      (download_loop vid fname atts rc).1.any isTranscriptWrite = false := by
  induction atts with
  | nil =>
      intro rc
      simp [download_loop]
  | cons o rest ih =>
      intro rc
      by_cases h3 : 3 ≤ rc
      · simp [download_loop, h3]
      · cases o with
        | streamsOk => simp [download_loop, h3, isLedgerWrite, isTranscriptWrite]
        | mergeError => simp [download_loop, h3, isLedgerWrite, isTranscriptWrite]
        | progressiveOk => simp [download_loop, h3, isLedgerWrite, isTranscriptWrite]
        | noStreams =>
            have hr := ih rc
            simp [download_loop, h3, isLedgerWrite, isTranscriptWrite, hr.1, hr.2]
        | raiseExc k =>
            by_cases hk : k = ExcKind.membersOnly ∨ k = ExcKind.videoUnavailable
            · simp [download_loop, h3, hk, isLedgerWrite, isTranscriptWrite]
            · by_cases hrc : rc + 1 < 3
              · have hr := ih (rc + 1)
                simp [download_loop, h3, hk, hrc, isLedgerWrite, isTranscriptWrite,
                  hr.1, hr.2]
              · simp [download_loop, h3, hk, hrc, isLedgerWrite, isTranscriptWrite]

theorem interruptSafe_of_no_ledger_write (vid : String) (d : Ledger) (evs : List Event)
    (h : evs.any isLedgerWrite = false) : InterruptSafe vid d evs := by
  intro n _
  exact ledgerAfterEvents_of_no_write d _ (any_take_eq_false h n)

theorem interruptSafe_success (vid t : String) (d l : Ledger) (A : List Event)
    (hA : A.any isLedgerWrite = false) :
    InterruptSafe vid d (A ++ [Event.extractAudioEv vid, Event.transcribeEv vid,
      Event.writeTranscriptEv vid t, Event.ledgerWriteEv l, Event.removeFileEv vid,
      Event.nameErrorEv]) := by
  intro n hn
  rw [List.take_append_eq_append_take] at hn ⊢
  rcases Nat.lt_or_ge (n - A.length) 3 with h3 | h3
  · apply ledgerAfterEvents_of_no_write
    rw [List.any_append, Bool.or_eq_false_iff]
    refine ⟨any_take_eq_false hA n, ?_⟩
    have hmin : min (n - A.length) 3 = n - A.length := by omega
    have heq : List.take (n - A.length) [Event.extractAudioEv vid, Event.transcribeEv vid,
        Event.writeTranscriptEv vid t, Event.ledgerWriteEv l, Event.removeFileEv vid,
        Event.nameErrorEv] = List.take (n - A.length) (List.take 3 [Event.extractAudioEv vid,
        Event.transcribeEv vid, Event.writeTranscriptEv vid t, Event.ledgerWriteEv l,
        Event.removeFileEv vid, Event.nameErrorEv]) := by
      rw [List.take_take, hmin]
    rw [heq]
    exact any_take_eq_false (by simp [isLedgerWrite]) _
  · exfalso
    obtain ⟨k, hk⟩ : ∃ k, n - A.length = k + 3 := ⟨n - A.length - 3, by omega⟩
    rw [hk] at hn
    rw [List.any_append, Bool.or_eq_false_iff] at hn
    have hw : (List.take (k + 3) [Event.extractAudioEv vid, Event.transcribeEv vid,
        Event.writeTranscriptEv vid t, Event.ledgerWriteEv l, Event.removeFileEv vid,
        Event.nameErrorEv]).any (isTranscriptWriteFor vid) = true := by
      have e1 : k + 3 = (k + 2) + 1 := rfl
      have e2 : k + 2 = (k + 1) + 1 := rfl
      rw [e1, List.take_succ_cons, e2, List.take_succ_cons, List.take_succ_cons]
      simp [isTranscriptWriteFor]
    rw [hn.2] at hw
    exact Bool.false_ne_true hw

theorem ledgerWrite_after_transcript_of_no_write (vid : String) (evs : List Event)
    (h : evs.any isLedgerWrite = false) :
    ∀ n, ((evs.take n).any isLedgerWrite = true) →
      ((evs.take n).any (isTranscriptWriteFor vid) = true) := by
  intro n hn
  rw [any_take_eq_false h n] at hn
  exact absurd hn (by simp)

theorem ledgerWrite_after_transcript_success (vid t : String) (l : Ledger) (A : List Event)
    (hA : A.any isLedgerWrite = false) :
    ∀ n, (((A ++ [Event.extractAudioEv vid, Event.transcribeEv vid,
        Event.writeTranscriptEv vid t, Event.ledgerWriteEv l, Event.removeFileEv vid,
        Event.nameErrorEv]).take n).any isLedgerWrite = true) →
      (((A ++ [Event.extractAudioEv vid, Event.transcribeEv vid,
        Event.writeTranscriptEv vid t, Event.ledgerWriteEv l, Event.removeFileEv vid,
        Event.nameErrorEv]).take n).any (isTranscriptWriteFor vid) = true) := by
  intro n hn
  rw [List.take_append_eq_append_take] at hn ⊢
  rcases Nat.lt_or_ge (n - A.length) 3 with h3 | h3
  · exfalso
    rw [List.any_append] at hn
    have h1 : (List.take n A).any isLedgerWrite = false := any_take_eq_false hA n
    have hmin : min (n - A.length) 3 = n - A.length := by omega
    have heq : List.take (n - A.length) [Event.extractAudioEv vid, Event.transcribeEv vid,
        Event.writeTranscriptEv vid t, Event.ledgerWriteEv l, Event.removeFileEv vid,
        Event.nameErrorEv] = List.take (n - A.length) (List.take 3 [Event.extractAudioEv vid,
        Event.transcribeEv vid, Event.writeTranscriptEv vid t, Event.ledgerWriteEv l,
        Event.removeFileEv vid, Event.nameErrorEv]) := by
      rw [List.take_take, hmin]
    have h2 : (List.take (n - A.length) [Event.extractAudioEv vid, Event.transcribeEv vid,
        Event.writeTranscriptEv vid t, Event.ledgerWriteEv l, Event.removeFileEv vid,
        Event.nameErrorEv]).any isLedgerWrite = false := by
      rw [heq]
      exact any_take_eq_false (by simp [isLedgerWrite]) _
    rw [h1, h2] at hn
    exact absurd hn (by simp)
  · obtain ⟨k, hk⟩ : ∃ k, n - A.length = k + 3 := ⟨n - A.length - 3, by omega⟩
    rw [hk]
    rw [List.any_append]
    have hw : (List.take (k + 3) [Event.extractAudioEv vid, Event.transcribeEv vid,
        Event.writeTranscriptEv vid t, Event.ledgerWriteEv l, Event.removeFileEv vid,
        Event.nameErrorEv]).any (isTranscriptWriteFor vid) = true := by
      have e1 : k + 3 = (k + 2) + 1 := rfl
      have e2 : k + 2 = (k + 1) + 1 := rfl
      rw [e1, List.take_succ_cons, e2, List.take_succ_cons, List.take_succ_cons]
      simp [isTranscriptWriteFor]
    rw [hw]
    simp

/-- C1: for a video that enters the pipeline (not skipped by either dedup
check), the persisted ledger is written only after the video's transcript file
write: truncating the event trace at any point before the transcript write
leaves the ledger file exactly as it was before the video started, and the
final ledger preserves every other playlist's entry and every previously
recorded video of the current playlist. -/
theorem c1_ledger_entry_only_after_transcript_write
    (playlist_id playlist_title : String) (td0 d : Ledger) (pv0 : List String)
    (v : VideoInfo) (env : VideoEnv)
    (hAny : video_exists_in_any_playlist v.videoId td0 = false)
    (hCur : v.videoId ∉ pv0) :
    InterruptSafe v.videoId d
      (process_one playlist_id playlist_title td0 pv0 d v env).events ∧
    (∀ n, (((process_one playlist_id playlist_title td0 pv0 d v env).events.take n).any
        isLedgerWrite = true) →
      (((process_one playlist_id playlist_title td0 pv0 d v env).events.take n).any
        (isTranscriptWriteFor v.videoId) = true)) ∧
    (∀ q, q ≠ playlist_id →
      lookupPl (process_one playlist_id playlist_title td0 pv0 d v env).ledger q
        = lookupPl d q) ∧
    (∀ r, lookupPl d playlist_id = some r →
      ∃ r2, lookupPl (process_one playlist_id playlist_title td0 pv0 d v env).ledger
          playlist_id = some r2 ∧ ∀ w ∈ r.videos, w ∈ r2.videos) := by
  have hD := download_loop_events v.videoId
    (downloadFilename v.videoId v.title playlist_title) env.attempts 0
  rcases hres : (download_loop v.videoId
      (downloadFilename v.videoId v.title playlist_title) env.attempts 0).2
    with p | _ | _ | _
  case filePath =>
    by_cases hev : env.extract_ok = false
    · have hP : process_one playlist_id playlist_title td0 pv0 d v env =
          ⟨(download_loop v.videoId (downloadFilename v.videoId v.title playlist_title)
            env.attempts 0).1 ++ [.extractAudioEv v.videoId], d, true⟩ := by
        simp [process_one, hAny, hCur, hres, hev]
      rw [hP]
      have hA2 : ((download_loop v.videoId (downloadFilename v.videoId v.title playlist_title)
          env.attempts 0).1 ++ [Event.extractAudioEv v.videoId]).any isLedgerWrite = false := by
        simp [List.any_append, hD.1, isLedgerWrite]
      exact ⟨interruptSafe_of_no_ledger_write _ _ _ hA2,
        ledgerWrite_after_transcript_of_no_write _ _ hA2,
        fun q _ => rfl, fun r hr => ⟨r, hr, fun w hw => hw⟩⟩
    · by_cases hae : env.audio_exists = false
      · have hP : process_one playlist_id playlist_title td0 pv0 d v env =
            ⟨(download_loop v.videoId (downloadFilename v.videoId v.title playlist_title)
              env.attempts 0).1 ++ [.extractAudioEv v.videoId], d, true⟩ := by
          simp [process_one, hAny, hCur, hres, hev, hae]
        rw [hP]
        have hA2 : ((download_loop v.videoId (downloadFilename v.videoId v.title
            playlist_title) env.attempts 0).1 ++
            [Event.extractAudioEv v.videoId]).any isLedgerWrite = false := by
          simp [List.any_append, hD.1, isLedgerWrite]
        exact ⟨interruptSafe_of_no_ledger_write _ _ _ hA2,
          ledgerWrite_after_transcript_of_no_write _ _ hA2,
          fun q _ => rfl, fun r hr => ⟨r, hr, fun w hw => hw⟩⟩
      · have hP : process_one playlist_id playlist_title td0 pv0 d v env =
            ⟨(download_loop v.videoId (downloadFilename v.videoId v.title playlist_title)
              env.attempts 0).1 ++
              [.extractAudioEv v.videoId, .transcribeEv v.videoId,
               .writeTranscriptEv v.videoId env.transcription,
               .ledgerWriteEv (save_transcribed_video v.videoId playlist_id
                 playlist_title d),
               .removeFileEv v.videoId, .nameErrorEv],
             save_transcribed_video v.videoId playlist_id playlist_title d, false⟩ := by
          simp [process_one, hAny, hCur, hres, hev, hae]
        rw [hP]
        obtain ⟨r2, hl2, hm2, hmono⟩ :=
          save_lookup_self v.videoId playlist_id playlist_title d
        exact ⟨interruptSafe_success v.videoId env.transcription d _ _ hD.1,
          ledgerWrite_after_transcript_success v.videoId env.transcription _ _ hD.1,
          fun q hq => save_lookup_other v.videoId playlist_id playlist_title q d hq,
          fun r hr => ⟨r2, hl2, fun w hw => (hmono r hr).2 w hw⟩⟩
  case noneR =>
    have hP : process_one playlist_id playlist_title td0 pv0 d v env =
        ⟨(download_loop v.videoId (downloadFilename v.videoId v.title playlist_title)
          env.attempts 0).1, d, true⟩ := by
      simp [process_one, hAny, hCur, hres]
    rw [hP]
    exact ⟨interruptSafe_of_no_ledger_write _ _ _ hD.1,
      ledgerWrite_after_transcript_of_no_write _ _ hD.1,
      fun q _ => rfl, fun r hr => ⟨r, hr, fun w hw => hw⟩⟩
  case raised =>
    have hP : process_one playlist_id playlist_title td0 pv0 d v env =
        ⟨(download_loop v.videoId (downloadFilename v.videoId v.title playlist_title)
          env.attempts 0).1, d, false⟩ := by
      simp [process_one, hAny, hCur, hres]
    rw [hP]
    exact ⟨interruptSafe_of_no_ledger_write _ _ _ hD.1,
      ledgerWrite_after_transcript_of_no_write _ _ hD.1,
      fun q _ => rfl, fun r hr => ⟨r, hr, fun w hw => hw⟩⟩
  case pending =>
    have hP : process_one playlist_id playlist_title td0 pv0 d v env =
        ⟨(download_loop v.videoId (downloadFilename v.videoId v.title playlist_title)
          env.attempts 0).1, d, false⟩ := by
      simp [process_one, hAny, hCur, hres]
    rw [hP]
    exact ⟨interruptSafe_of_no_ledger_write _ _ _ hD.1,
      ledgerWrite_after_transcript_of_no_write _ _ hD.1,
      fun q _ => rfl, fun r hr => ⟨r, hr, fun w hw => hw⟩⟩

/-- C10: `load_transcribed_videos` tolerates the legacy persisted format: a
file parsing as a JSON list loads as a mapping with that list under the single
key `default`, and a missing file loads as the empty mapping. -/
theorem c10_load_legacy_format :
    (∀ xs, load_transcribed_videos (some (.jsonList xs))
        = [("default", .legacyList xs)]) ∧
    load_transcribed_videos none = [] :=
  ⟨fun _ => rfl, rfl⟩

/-- C9: `is_video_transcribed` returns true exactly when the transcript file
of the video in the playlist's directory exists and its content is non-empty
after trimming whitespace; in particular an existing empty or whitespace-only
file yields false. -/
theorem c9_content_based_check (fs : String → Option String)
    (video_id playlist_title output_path : String) :
    is_video_transcribed fs video_id playlist_title output_path = true ↔
      ∃ c, fs (transcriptPath video_id playlist_title output_path) = some c ∧
        c.trim ≠ "" := by
  unfold is_video_transcribed
  cases hfs : fs (transcriptPath video_id playlist_title output_path) with
  | none => simp
  | some c =>
      constructor
      · intro h
        exact ⟨c, rfl, by simpa using h⟩
      · rintro ⟨c2, hc2, hne⟩
        obtain rfl : c2 = c := (Option.some_inj.mp hc2).symm
        simpa using hne

/-- C2: `save_transcribed_video` is an idempotent insert: it creates the
playlist's record when absent, is a no-op when the video id is already present
under that playlist (so saving twice equals saving once), leaves every other
playlist's entry unchanged, and, under the Python dict guarantees (unique
keys, inductively duplicate-free video lists), the mapping it persists never
holds a video id twice under the same playlist. -/
theorem c2_record_idempotent_insert (vid pid pt : String) (d : Ledger) :
    (lookupPl d pid = none →
      lookupPl (save_transcribed_video vid pid pt d) pid = some ⟨pt, [vid]⟩) ∧
    (∀ r, lookupPl d pid = some r → vid ∈ r.videos →
      save_transcribed_video vid pid pt d = d) ∧
    save_transcribed_video vid pid pt (save_transcribed_video vid pid pt d)
      = save_transcribed_video vid pid pt d ∧
    (∀ q, q ≠ pid →
      lookupPl (save_transcribed_video vid pid pt d) q = lookupPl d q) ∧
    ((d.map Prod.fst).Nodup → (∀ p ∈ d, p.2.videos.Nodup) →
      ∀ p ∈ save_transcribed_video vid pid pt d, p.2.videos.Nodup) := by
  refine ⟨?_, ?_, save_idempotent vid pid pt d,
    fun q hq => save_lookup_other vid pid pt q d hq,
    save_videos_nodup vid pid pt d⟩
  · intro hs
    rw [save_of_absent vid pid pt d hs]
    exact lookupPl_append_self d pid _ hs
  · intro r hs hm
    exact save_of_mem vid pid pt d r hs hm

/-- Witness for C2 at a concrete ledger: the absent-key insert and the
idempotence, evaluated at explicit inputs. -/
theorem c2_record_idempotent_insert_witness :
    lookupPl (save_transcribed_video "v" "P" "T" [("A", ⟨"TA", ["w"]⟩)]) "P"
      = some ⟨"T", ["v"]⟩ ∧
    save_transcribed_video "v" "P" "T"
        (save_transcribed_video "v" "P" "T" [("A", ⟨"TA", ["w"]⟩)])
      = save_transcribed_video "v" "P" "T" [("A", ⟨"TA", ["w"]⟩)] :=
  ⟨(c2_record_idempotent_insert "v" "P" "T" [("A", ⟨"TA", ["w"]⟩)]).1 rfl,
   (c2_record_idempotent_insert "v" "P" "T" [("A", ⟨"TA", ["w"]⟩)]).2.2.1⟩

/-- Witness for C1: interrupt safety evaluated at a concrete pipeline video,
cutting the trace after the first two events (before the transcript write):
the persisted ledger file is still empty. -/
theorem c1_ledger_entry_only_after_transcript_write_witness :
    ledgerAfterEvents []
      ((process_one "PL1" "My Playlist" [] [] [] ⟨"v1", "Video One"⟩
        ⟨[.streamsOk], true, true, "hello"⟩).events.take 2) = [] :=
  (c1_ledger_entry_only_after_transcript_write "PL1" "My Playlist" [] [] []
    ⟨"v1", "Video One"⟩ ⟨[.streamsOk], true, true, "hello"⟩ rfl
    (by simp)).1 2 (by decide)

/-- C3 counterexample: a video whose transcription comes back as the empty
string is still fully finalized by the code: the transcript file write event
carries the empty text and the ledger afterwards holds the video under the
current playlist, contradicting the claim that an empty result yields no
ledger entry and no completed transcript file. -/
theorem c3_counterexample_empty_transcript_recorded :
    Event.writeTranscriptEv "v1" "" ∈
      (main_run "PL1" "My Playlist" [] [(⟨"v1", "Video One"⟩,
        ⟨[.streamsOk], true, true, ""⟩)]).1 ∧
    lookupPl (main_run "PL1" "My Playlist" [] [(⟨"v1", "Video One"⟩,
        ⟨[.streamsOk], true, true, ""⟩)]).2 "PL1"
      = some ⟨"My Playlist", ["v1"]⟩ := by
  decide

/-- C3 amended: the pipeline applies no emptiness check to the transcription
result: for every text, the empty and whitespace-only strings included, the
successful path writes the transcript file with exactly that text and then
records the video in the ledger under the current playlist. -/
theorem c3_amended_empty_transcript_still_recorded
    (playlist_id playlist_title : String) (td0 d : Ledger) (pv0 : List String)
    (v : VideoInfo) (t : String)
    (hAny : video_exists_in_any_playlist v.videoId td0 = false)
    (hCur : v.videoId ∉ pv0) :
    Event.writeTranscriptEv v.videoId t ∈
      (process_one playlist_id playlist_title td0 pv0 d v
        ⟨[.streamsOk], true, true, t⟩).events ∧
    (process_one playlist_id playlist_title td0 pv0 d v
        ⟨[.streamsOk], true, true, t⟩).ledger
      = save_transcribed_video v.videoId playlist_id playlist_title d ∧
    ∃ r2, lookupPl (process_one playlist_id playlist_title td0 pv0 d v
        ⟨[.streamsOk], true, true, t⟩).ledger playlist_id = some r2 ∧
      v.videoId ∈ r2.videos := by
  have hP : process_one playlist_id playlist_title td0 pv0 d v
      ⟨[.streamsOk], true, true, t⟩ =
      ⟨[.sleepEv 1, .fetchAttemptEv v.videoId] ++
        [.extractAudioEv v.videoId, .transcribeEv v.videoId,
         .writeTranscriptEv v.videoId t,
         .ledgerWriteEv (save_transcribed_video v.videoId playlist_id playlist_title d),
         .removeFileEv v.videoId, .nameErrorEv],
       save_transcribed_video v.videoId playlist_id playlist_title d, false⟩ := by
    simp [process_one, hAny, hCur, download_loop]
  rw [hP]
  obtain ⟨r2, hl2, hm2, _⟩ := save_lookup_self v.videoId playlist_id playlist_title d
  exact ⟨by simp, rfl, r2, hl2, hm2⟩

/-- Witness for the amended C3 at an empty transcription. -/
theorem c3_amended_empty_transcript_still_recorded_witness :
    Event.writeTranscriptEv "v2" "" ∈
      (process_one "PL2" "Other Playlist" [] [] [] ⟨"v2", "Video Two"⟩
        ⟨[.streamsOk], true, true, ""⟩).events :=
  (c3_amended_empty_transcript_still_recorded "PL2" "Other Playlist" [] [] []
    ⟨"v2", "Video Two"⟩ "" rfl (by simp)).1

/-- C4 counterexample: a fetch that raises `VideoPrivate` on every attempt —
a classified-permanent condition in the claim — is retried like a transient
error: three fetch attempts occur instead of exactly one, and the call ends
in the very same `None` result used for exhausted transient retries, not in a
distinct permanently-unavailable result. -/
theorem c4_counterexample_private_is_retried :
    countFetchAttempts "v1"
      (download_video_and_audio "v1" "Video One" "My Playlist"
        [.raiseExc .videoPrivate, .raiseExc .videoPrivate,
         .raiseExc .videoPrivate]).1 = 3 ∧
    countFetchAttempts "v1"
      (download_video_and_audio "v1" "Video One" "My Playlist"
        [.raiseExc .videoPrivate, .raiseExc .videoPrivate,
         .raiseExc .videoPrivate]).1 ≠ 1 ∧
    (download_video_and_audio "v1" "Video One" "My Playlist"
      [.raiseExc .videoPrivate, .raiseExc .videoPrivate,
       .raiseExc .videoPrivate]).2 = .noneR := by
  decide

/-- C4 amended: of the caught conditions only `MembersOnly` and
`VideoUnavailable` short-circuit after exactly one fetch attempt, and that
path terminates by the uncaught `NameError` from the undefined global
`PLAYLIST_ID` rather than by returning a distinct result; private,
region-blocked, age-restricted, live-stream and HTTP errors are retried up to
the 3-attempt bound and end in the same `None` result as a transient failure.
In every case the fetch writes no transcript file and no ledger entry. -/
theorem c4_amended_only_members_unavailable_skip_retry
    (vid vt pt : String) (k : ExcKind) :
    (if k = ExcKind.membersOnly ∨ k = ExcKind.videoUnavailable then
      countFetchAttempts vid (download_video_and_audio vid vt pt
        [.raiseExc k, .raiseExc k, .raiseExc k]).1 = 1 ∧
      (download_video_and_audio vid vt pt
        [.raiseExc k, .raiseExc k, .raiseExc k]).2 = .raised ∧
      Event.nameErrorEv ∈ (download_video_and_audio vid vt pt
        [.raiseExc k, .raiseExc k, .raiseExc k]).1
    else
      countFetchAttempts vid (download_video_and_audio vid vt pt
        [.raiseExc k, .raiseExc k, .raiseExc k]).1 = 3 ∧
      (download_video_and_audio vid vt pt
        [.raiseExc k, .raiseExc k, .raiseExc k]).2 = .noneR) ∧
    (download_video_and_audio vid vt pt
      [.raiseExc k, .raiseExc k, .raiseExc k]).1.any isTranscriptWrite = false ∧
    (download_video_and_audio vid vt pt
      [.raiseExc k, .raiseExc k, .raiseExc k]).1.any isLedgerWrite = false := by
  cases k <;>
    simp [download_video_and_audio, download_loop, countFetchAttempts,
      isFetchAttemptFor, isTranscriptWrite, isLedgerWrite]

/-- C5: evaluating the code at a members-only video of the selected playlist:
the handler at source line 205 evaluates the undefined global `PLAYLIST_ID`,
so the run dies with `NameError` before `save_transcribed_video` is entered.
No ledger write happens at all — the video is not recorded as done under the
current playlist (nor under any other), and processing does not exit through
the skip path. -/
theorem c5_members_only_name_error_no_record :
    Event.nameErrorEv ∈ (main_run "PL1" "My Playlist" []
      [(⟨"m1", "Members Video"⟩,
        ⟨[.raiseExc .membersOnly], true, true, "text"⟩)]).1 ∧
    (main_run "PL1" "My Playlist" []
      [(⟨"m1", "Members Video"⟩,
        ⟨[.raiseExc .membersOnly], true, true, "text"⟩)]).2 = [] ∧
    (main_run "PL1" "My Playlist" []
      [(⟨"m1", "Members Video"⟩,
        ⟨[.raiseExc .membersOnly], true, true, "text"⟩)]).1.any isLedgerWrite
      = false := by
  decide

/-- C6: a fetch that fails with retriable (transient-handled) errors on every
attempt performs exactly 3 attempts, sleeping 2 seconds between consecutive
attempts (line 211; each attempt is additionally preceded by the fixed
1-second sleep of line 130), returns `None`, performs no ledger write — the
persisted ledger is bit-for-bit unchanged — and the run continues with the
remaining items. -/
theorem c6_transient_three_attempts_then_continue
    (playlist_id playlist_title : String) (td0 d : Ledger) (pv0 : List String)
    (v : VideoInfo) (eo ae : Bool) (t : String) (k1 k2 k3 : ExcKind)
    (rest : List (VideoInfo × VideoEnv))
    (hAny : video_exists_in_any_playlist v.videoId td0 = false)
    (hCur : v.videoId ∉ pv0)
    (h1 : k1 ≠ ExcKind.membersOnly) (h1u : k1 ≠ ExcKind.videoUnavailable)
    (h2 : k2 ≠ ExcKind.membersOnly) (h2u : k2 ≠ ExcKind.videoUnavailable)
    (h3 : k3 ≠ ExcKind.membersOnly) (h3u : k3 ≠ ExcKind.videoUnavailable) :
    (process_one playlist_id playlist_title td0 pv0 d v
        ⟨[.raiseExc k1, .raiseExc k2, .raiseExc k3], eo, ae, t⟩).events =
      [.sleepEv 1, .fetchAttemptEv v.videoId, .sleepEv 2,
       .sleepEv 1, .fetchAttemptEv v.videoId, .sleepEv 2,
       .sleepEv 1, .fetchAttemptEv v.videoId] ∧
    countFetchAttempts v.videoId
      (process_one playlist_id playlist_title td0 pv0 d v
        ⟨[.raiseExc k1, .raiseExc k2, .raiseExc k3], eo, ae, t⟩).events = 3 ∧
    (process_one playlist_id playlist_title td0 pv0 d v
        ⟨[.raiseExc k1, .raiseExc k2, .raiseExc k3], eo, ae, t⟩).ledger = d ∧
    (process_one playlist_id playlist_title td0 pv0 d v
        ⟨[.raiseExc k1, .raiseExc k2, .raiseExc k3], eo, ae, t⟩).continueRun = true ∧
    run_loop playlist_id playlist_title td0 pv0
        ((v, ⟨[.raiseExc k1, .raiseExc k2, .raiseExc k3], eo, ae, t⟩) :: rest) d =
      ((process_one playlist_id playlist_title td0 pv0 d v
          ⟨[.raiseExc k1, .raiseExc k2, .raiseExc k3], eo, ae, t⟩).events ++
        (run_loop playlist_id playlist_title td0 pv0 rest d).1,
       (run_loop playlist_id playlist_title td0 pv0 rest d).2) := by
  have hP : process_one playlist_id playlist_title td0 pv0 d v
      ⟨[.raiseExc k1, .raiseExc k2, .raiseExc k3], eo, ae, t⟩ =
      ⟨[.sleepEv 1, .fetchAttemptEv v.videoId, .sleepEv 2,
        .sleepEv 1, .fetchAttemptEv v.videoId, .sleepEv 2,
        .sleepEv 1, .fetchAttemptEv v.videoId], d, true⟩ := by
    simp [process_one, hAny, hCur, download_loop, h1, h1u, h2, h2u, h3, h3u]
  rw [hP]
  refine ⟨rfl, by simp [countFetchAttempts, isFetchAttemptFor], rfl, rfl, ?_⟩
  rw [run_loop, hP]
  simp

/-- Witness for C6 at concrete retriable error kinds. -/
theorem c6_transient_three_attempts_then_continue_witness :
    countFetchAttempts "v3"
      (process_one "PL1" "My Playlist" [] [] [] ⟨"v3", "Video Three"⟩
        ⟨[.raiseExc .videoPrivate, .raiseExc .httpError,
          .raiseExc .liveStreamError], true, true, "x"⟩).events = 3 :=
  (c6_transient_three_attempts_then_continue "PL1" "My Playlist" [] [] []
    ⟨"v3", "Video Three"⟩ true true "x" .videoPrivate .httpError .liveStreamError
    [] rfl (by simp) (by decide) (by decide) (by decide) (by decide) (by decide)
    (by decide)).2.1

/-- C7: a video already recorded anywhere in the snapshot loaded at run start
is handled by a single label-only ledger update under the current playlist
(real id and title): its trace is exactly one ledger write, so it contains
no fetch attempt, no audio extraction, no transcription and no transcript
write, the video ends up recorded under the current playlist, and the loop
proceeds to the next item with the updated ledger. -/
theorem c7_cross_playlist_label_only_update
    (playlist_id playlist_title : String) (td0 d : Ledger) (pv0 : List String)
    (v : VideoInfo) (env : VideoEnv) (rest : List (VideoInfo × VideoEnv))
    (hAny : video_exists_in_any_playlist v.videoId td0 = true) :
    (process_one playlist_id playlist_title td0 pv0 d v env).events =
      [.ledgerWriteEv (save_transcribed_video v.videoId playlist_id playlist_title d)] ∧
    (process_one playlist_id playlist_title td0 pv0 d v env).ledger
      = save_transcribed_video v.videoId playlist_id playlist_title d ∧
    (process_one playlist_id playlist_title td0 pv0 d v env).continueRun = true ∧
    countFetchAttempts v.videoId
      (process_one playlist_id playlist_title td0 pv0 d v env).events = 0 ∧
    (process_one playlist_id playlist_title td0 pv0 d v env).events.any
      isTranscriptWrite = false ∧
    (∃ r2, lookupPl (process_one playlist_id playlist_title td0 pv0 d v env).ledger
        playlist_id = some r2 ∧ v.videoId ∈ r2.videos) ∧
    run_loop playlist_id playlist_title td0 pv0 ((v, env) :: rest) d =
      ((process_one playlist_id playlist_title td0 pv0 d v env).events ++
        (run_loop playlist_id playlist_title td0 pv0 rest
          (save_transcribed_video v.videoId playlist_id playlist_title d)).1,
       (run_loop playlist_id playlist_title td0 pv0 rest
          (save_transcribed_video v.videoId playlist_id playlist_title d)).2) := by
  have hP : process_one playlist_id playlist_title td0 pv0 d v env =
      ⟨[.ledgerWriteEv (save_transcribed_video v.videoId playlist_id playlist_title d)],
       save_transcribed_video v.videoId playlist_id playlist_title d, true⟩ := by
    simp [process_one, hAny]
  rw [hP]
  obtain ⟨r2, hl2, hm2, _⟩ := save_lookup_self v.videoId playlist_id playlist_title d
  refine ⟨rfl, rfl, rfl, by simp [countFetchAttempts, isFetchAttemptFor],
    by simp [isTranscriptWrite, isLedgerWrite], ⟨r2, hl2, hm2⟩, ?_⟩
  rw [run_loop, hP]
  simp

/-- Witness for C7: a video recorded under playlist A, processed while
playlist B is selected, is relabelled under B by a single ledger write. -/
theorem c7_cross_playlist_label_only_update_witness :
    (process_one "B" "Playlist B" [("A", ⟨"Playlist A", ["v1"]⟩)] []
        [("A", ⟨"Playlist A", ["v1"]⟩)] ⟨"v1", "Video One"⟩
        ⟨[.streamsOk], true, true, "x"⟩).events =
      [.ledgerWriteEv (save_transcribed_video "v1" "B" "Playlist B"
        [("A", ⟨"Playlist A", ["v1"]⟩)])] :=
  (c7_cross_playlist_label_only_update "B" "Playlist B"
    [("A", ⟨"Playlist A", ["v1"]⟩)] [("A", ⟨"Playlist A", ["v1"]⟩)] []
    ⟨"v1", "Video One"⟩ ⟨[.streamsOk], true, true, "x"⟩ [] (by decide)).1

/-- C8: evaluating the code at a run whose first video fails at the merge
stage: the ffmpeg `CalledProcessError` is not in the caught exception tuple,
so it aborts the whole run — the second video is never fetched and the ledger
stays empty — contradicting the claimed per-video failure isolation. -/
theorem c8_merge_failure_aborts_rest_of_run :
    Event.processErrorEv ∈ (main_run "PL1" "My Playlist" []
      [(⟨"v1", "Video One"⟩, ⟨[.mergeError], true, true, "a"⟩),
       (⟨"v2", "Video Two"⟩, ⟨[.streamsOk], true, true, "b"⟩)]).1 ∧
    countFetchAttempts "v2" (main_run "PL1" "My Playlist" []
      [(⟨"v1", "Video One"⟩, ⟨[.mergeError], true, true, "a"⟩),
       (⟨"v2", "Video Two"⟩, ⟨[.streamsOk], true, true, "b"⟩)]).1 = 0 ∧
    (main_run "PL1" "My Playlist" []
      [(⟨"v1", "Video One"⟩, ⟨[.mergeError], true, true, "a"⟩),
       (⟨"v2", "Video Two"⟩, ⟨[.streamsOk], true, true, "b"⟩)]).2 = [] := by
  decide
